import Mathlib

/-!
# lazykube: navigation and detail dispatch (`pkg/app/render.go`)

A shallow embedding of the package-level navigation state, the option-strip
hit test, the selection clearing and the detail render routines of
`pkg/app/render.go`, followed by the properties established about them.

Conventions of the embedding.

* A `*gui.View` is identified with the name of the panel it points to, so
  pointer comparison of views is comparison of names and a nil pointer is
  `none`. The package variables `Namespace`, `Pod` and `Detail` are the panels
  named `namespaceViewName`, `podViewName` and `detailViewName`.
* Go `int` is `Int`; `len([]rune(s))` is `String.length`, `len(s)` is
  `String.utf8ByteSize`.
* Every call on the terminal substrate or on the resource query service that
  is visible from outside is appended to `World.trace`, in program order.
* A runtime panic (nil dereference, index or slice bounds out of range) is the
  result `none`.
-/

namespace Lazykube

/-! ## Constants -/

def OptSeparator : String := "   "

def navigationPathJoin : String := " + "

def logsTail : String := "200"

/-- Modelled from the spec: the name constant of the ClusterInfo panel, declared outside `render.go`. -/
def clusterInfoViewName : String := "clusterInfo"

/-- Modelled from the spec: the name constant of the Namespace panel, declared outside `render.go`. -/
def namespaceViewName : String := "namespace"

/-- Modelled from the spec: the name constant of the Service panel, declared outside `render.go`. -/
def serviceViewName : String := "service"

/-- Modelled from the spec: the name constant of the Deployment panel, declared outside `render.go`. -/
def deploymentViewName : String := "deployment"

/-- Modelled from the spec: the name constant of the Pod panel, declared outside `render.go`. -/
def podViewName : String := "pod"

/-- Modelled from the spec: the name constant of the detail pane, declared outside `render.go`. -/
def detailViewName : String := "detail"

def functionViews : List String :=
  [clusterInfoViewName, namespaceViewName, serviceViewName, deploymentViewName, podViewName]

/-- The table `viewNavigationMap`; a key that is absent yields the nil slice. -/
def viewNavigationMap (name : String) : List String :=
  if name = clusterInfoViewName then ["Nodes", "Top Nodes"]
  else if name = namespaceViewName then ["Config", "Deployments", "Pods"]
  else if name = serviceViewName then ["Config", "Pods", "Pods Log", "Top Pods"]
  else if name = deploymentViewName then ["Config", "Pods", "Pods Log", "Describe", "Top Pods"]
  else if name = podViewName then ["Log", "Config", "Top", "Describe"]
  else []

/-- The function `strings.Join`. -/
def stringsJoin : List String → String → String
  | [], _ => ""
  | [a], _ => a
  | a :: b :: rest, sep => a ++ sep ++ stringsJoin (b :: rest) sep

def navigationPath (args : List String) : String :=
  stringsJoin args navigationPathJoin

/-! ## The world: terminal substrate, query service and package state -/

/-- A request to the resource query service (`kubecli.Cli`): the optional
namespace override of `WithNamespace`, the operation, its positional arguments
and the flags in the order `SetFlag` set them. -/
structure Request where
  namespaceOverride : Option String
  verb : String
  args : List String
  flags : List (String × String)
deriving DecidableEq, Repr

/-- An externally visible call. `run req out` is `Run()` of a request whose
output streams are the panel `out` (`viewStreams`), or an in-memory buffer
(`newStream`) when `out` is `none`. -/
inductive Effect where
  | clear (view : String)
  | write (view : String) (text : String)
  | reRender (view : String)
  | run (req : Request) (out : Option String)
deriving DecidableEq, Repr

structure World where
  /-- The panels that `gui.GetView` resolves. -/
  panels : List String
  /-- The result of `gui.CurrentView()`, the focused panel. -/
  currentView : Option String
  /-- The `selectedViewLine` slot of every panel. -/
  selected : String → Option String
  /-- The scroll origin of the `Detail` pane. -/
  detailOrigin : Int × Int
  /-- The result of `kubecli.Cli.Namespace()`. -/
  cliNamespace : String
  /-- The text the resource query service answers a request with (standard
  output followed by standard error). -/
  service : Request → String
  /-- The function `utils.LabelsToStringArr`, declared outside `render.go`. -/
  LabelsToStringArr : String → List String
  /-- Package variable `activeView`. -/
  activeView : Option String
  /-- Package variable `navigationIndex`. -/
  navigationIndex : Int
  /-- Package variable `activeNavigationOpt`. -/
  activeNavigationOpt : String
  /-- The calls made so far, oldest first. -/
  trace : List Effect

def World.emit (w : World) (e : Effect) : World :=
  { w with trace := w.trace ++ [e] }

/-- The call `gui.GetView(name)` succeeds. -/
def World.GetView (w : World) (name : String) : Bool :=
  w.panels.contains name

/-- The call `gui.FocusView(name, false)`: the flag tells whether it succeeded. -/
def World.FocusView (w : World) (name : String) : Bool × World :=
  if w.GetView name then (true, { w with currentView := some name }) else (false, w)

/-- The call `Run()`: the request is recorded and the answer text returned. -/
def World.run (w : World) (req : Request) (out : Option String) : String × World :=
  (w.service req, w.emit (Effect.run req out))

def Cli.Get (args : List String) : Request :=
  { namespaceOverride := none, verb := "get", args := args, flags := [] }

def Cli.Describe (args : List String) : Request :=
  { namespaceOverride := none, verb := "describe", args := args, flags := [] }

def Cli.Logs (args : List String) : Request :=
  { namespaceOverride := none, verb := "logs", args := args, flags := [] }

def Cli.TopNode (args : List String) : Request :=
  { namespaceOverride := none, verb := "top node", args := args, flags := [] }

def Cli.TopPod (args : List String) : Request :=
  { namespaceOverride := none, verb := "top pod", args := args, flags := [] }

/-- The call `SetFlag(k, v)`; it updates the command it is called on. -/
def Request.SetFlag (r : Request) (k v : String) : Request :=
  { r with flags := r.flags ++ [(k, v)] }

/-- The namespace override `Cli.WithNamespace(ns)` under which a command is built. -/
def Request.WithNamespace (r : Request) (ns : String) : Request :=
  { r with namespaceOverride := some ns }

/-- The rendering `Sprint` of the colour library: the text between the escape
sequence of the colour and the reset sequence. -/
def colorSprint (code : String) (s : String) : String :=
  "\x1b[" ++ code ++ "m" ++ s ++ "\x1b[0m"

def colorWhite : String := "37"

def colorGreen : String := "32"

/-- Indexing a slice with a Go `int`; `none` is the index-out-of-range panic. -/
def goIndex (xs : List String) (i : Int) : Option String :=
  if i < 0 then none else xs[i.toNat]?

/-! ## Navigation -/

def switchNavigation (index : Int) (w : World) : Option (String × World) :=
  let w := { w with detailOrigin := (0, 0) }
  if index < 0 then some ("", w)
  else
    match w.activeView with
    | some name =>
      if index ≥ ((viewNavigationMap name).length : Int) then some ("", w)
      else
        match goIndex (viewNavigationMap name) index with
        | none => none
        | some opt => some (opt, { w with navigationIndex := index, activeNavigationOpt := opt })
    | none => some ("", w)

/-- The loop of `navigationRender` that colours the options, from position `index` on. -/
def colorfulOptions (navigationIndex : Int) : List String → Int → List String
  | [], _ => []
  | opt :: rest, index =>
    (if navigationIndex = index then colorSprint colorGreen opt else colorSprint colorWhite opt)
      :: colorfulOptions navigationIndex rest (index + 1)

/-- The first part of `navigationRender`, up to the last assignment of
`activeView`: the flag `changeNavigation` and the world in which the active
view has been chosen. -/
def navigationRenderActiveView (w : World) : Bool × World :=
  let currentView := w.currentView
  let (changeNavigation, w) :=
    match currentView with
    | some cv =>
      if functionViews.contains cv then
        (decide (w.activeView ≠ some cv), { w with activeView := some cv })
      else (false, w)
    | none => (false, w)
  let w :=
    match w.activeView with
    | none =>
      let w := if w.currentView = none then (w.FocusView clusterInfoViewName).2 else w
      { w with activeView := w.currentView }
    | some _ => w
  (changeNavigation, w)

def navigationRender (view : String) (w : World) : Option World :=
  let (changeNavigation, w) := navigationRenderActiveView w
  match w.activeView with
  | none => none
  | some name =>
    let options := viewNavigationMap name
    let w? : Option World :=
      if w.activeNavigationOpt = "" then
        (goIndex options w.navigationIndex).map fun opt => { w with activeNavigationOpt := opt }
      else some w
    match w? with
    | none => none
    | some w =>
      let w? : Option World :=
        if changeNavigation then (switchNavigation 0 w).map Prod.snd else some w
      match w? with
      | none => none
      | some w =>
        let str := stringsJoin (colorfulOptions w.navigationIndex options 0) OptSeparator
        some ((w.emit (Effect.clear view)).emit (Effect.write view str))

/-- The loop of `navigationOnClick`, at option number `i` with the running `preFix`. -/
def navigationOnClickLoop (cx sep halfSep : Int) : List String → Int → Int → World → Option World
  | [], _, _, w => some w
  | opt :: rest, i, preFix, w =>
    let left := preFix + i * sep
    let words : Int := opt.length
    let right := left + words - 1
    let preFix := preFix + (words - 1)
    if cx ≥ left - halfSep ∧ cx ≤ right + halfSep then
      (switchNavigation i w).map Prod.snd
    else navigationOnClickLoop cx sep halfSep rest (i + 1) preFix w

/-- The click handler; `cx` is the column of `view.Cursor()`. -/
def navigationOnClick (cx : Int) (w : World) : Option World :=
  match w.activeView with
  | none => none
  | some name =>
    let options := viewNavigationMap name
    let sep : Int := OptSeparator.utf8ByteSize
    let halfSep := sep / 2
    navigationOnClickLoop cx sep halfSep options 0 0 w

/-- The loop of `onFocusClearSelected` over the names of the function panels. -/
def onFocusClearSelectedLoop (view : String) : List String → World → World
  | [], w => w
  | functionViewName :: rest, w =>
    if functionViewName = view ∨ functionViewName = namespaceViewName then
      onFocusClearSelectedLoop view rest w
    else if ¬ w.GetView functionViewName then
      onFocusClearSelectedLoop view rest w
    else
      onFocusClearSelectedLoop view rest
        { w with selected := fun n => if n = functionViewName then none else w.selected n }

def onFocusClearSelected (view : String) (w : World) : World :=
  onFocusClearSelectedLoop view functionViews w

/-- A world with nothing selected, nothing focused and the package variables
at their zero values. -/
def World.initial (panels : List String) : World :=
  { panels := panels, currentView := none, selected := fun _ => none, detailOrigin := (0, 0),
    cliNamespace := "", service := fun _ => "", LabelsToStringArr := fun _ => [],
    activeView := none, navigationIndex := 0, activeNavigationOpt := "", trace := [] }

/-! ## Selection parsing -/

/-- The fields of a row: the maximal runs of characters that are not white
space. `cur` holds the field being read, last character first. -/
def rowFields : List Char → List Char → List String
  | [], cur => if cur = [] then [] else [String.mk cur.reverse]
  | c :: cs, cur =>
    if c.isWhitespace then
      (if cur = [] then rowFields cs [] else String.mk cur.reverse :: rowFields cs [])
    else rowFields cs (c :: cur)

/-- Modelled from the spec: `formatSelectedName` is declared outside
`render.go`; field extraction from a selected row is positional, the row is
split on whitespace runs and the field at `index` is taken, the empty string
when the row has no such field. -/
def formatSelectedName (selected : String) (index : Nat) : String :=
  (rowFields selected.toList []).getD index ""

/-- Modelled from the spec: `formatSelectedNamespace` is declared outside
`render.go`; the dedicated parser strips the table formatting of the
Namespace panel's row to the bare name, its first field. -/
def formatSelectedNamespace (selected : String) : String :=
  formatSelectedName selected 0

/-- The call `strings.Replace(s, old, new, 1)` on the characters of the strings. -/
def replaceFirst : List Char → List Char → List Char → List Char
  | [], old, new => if old = [] then new else []
  | c :: cs, old, new =>
    if old.isPrefixOf (c :: cs) then new ++ (c :: cs).drop old.length
    else c :: replaceFirst cs old new

/-! ## Render routines -/

def renderHighlightSelected (view : String) (content : String) (w : World) : World :=
  match w.selected view with
  | some highlightString =>
    let content := String.mk
      (replaceFirst content.toList highlightString.toList
        (colorSprint colorGreen highlightString).toList)
    w.emit (Effect.write view content)
  | none => w.emit (Effect.write view content)

def showPleaseSelected (view : String) (name : String) (w : World) : World :=
  w.emit (Effect.write view ("Please select a " ++ name ++ ". "))

def clusterNodesRender (view : String) (w : World) : Option World :=
  some (w.run (Cli.Get ["nodes"]) (some view)).2

def topNodesRender (view : String) (w : World) : Option World :=
  let w := (w.run (Cli.TopNode [""]) (some view)).2
  some (w.emit (Effect.reRender view))

def deploymentRender (view : String) (w : World) : Option World :=
  let w := w.emit (Effect.clear view)
  if w.cliNamespace = "" then
    let (out, w) := w.run ((Cli.Get ["deployments"]).SetFlag "all-namespaces" "true") none
    some (renderHighlightSelected view out w)
  else
    let w := (w.run (Cli.Get ["deployments"]) (some view)).2
    some (renderHighlightSelected view "" w)

def podRender (view : String) (w : World) : Option World :=
  let w := w.emit (Effect.clear view)
  if w.cliNamespace = "" then
    let (out, w) :=
      w.run (((Cli.Get ["pods"]).SetFlag "all-namespaces" "true").SetFlag "output" "wide") none
    some (renderHighlightSelected view out w)
  else
    let (out, w) := w.run ((Cli.Get ["pods"]).SetFlag "output" "wide") none
    some (renderHighlightSelected view out w)

def namespaceConfigRender (view : String) (w : World) : Option World :=
  let w := w.emit (Effect.clear view)
  if ¬ w.GetView namespaceViewName then some w
  else
    match w.selected namespaceViewName with
    | some selected =>
      let ns := formatSelectedNamespace selected
      if ns = "" then some (showPleaseSelected view namespaceViewName w)
      else some (w.run ((Cli.Get ["namespaces", ns]).SetFlag "output" "yaml") (some view)).2
    | none => some (showPleaseSelected view namespaceViewName w)

def configRender (view : String) (w : World) : Option World :=
  let w := w.emit (Effect.clear view)
  match w.activeView with
  | none => some w
  | some activeName =>
    if activeName = namespaceViewName then namespaceConfigRender view w
    else if ¬ w.GetView namespaceViewName then some w
    else
      let selectedNamespace := w.selected namespaceViewName
      let selected := w.selected activeName
      let resource :=
        if activeName = serviceViewName then "service"
        else if activeName = deploymentViewName then "deployment"
        else if activeName = podViewName then "pod"
        else ""
      if resource = "" then some w
      else
        match selected with
        | none => some (showPleaseSelected view resource w)
        | some selected =>
          if selectedNamespace.isSome then
            let selectedName := formatSelectedName selected 0
            if selectedName = "" then some (showPleaseSelected view resource w)
            else
              some (w.run ((Cli.Get [resource, selectedName]).SetFlag "output" "yaml")
                (some view)).2
          else
            let ns := formatSelectedName selected 0
            let selectedName := formatSelectedName selected 1
            if selectedName = "" then some (showPleaseSelected view resource w)
            else
              some (w.run
                (((Cli.Get [resource, selectedName]).WithNamespace ns).SetFlag "output" "yaml")
                (some view)).2

def describeRender (view : String) (w : World) : Option World :=
  let w := w.emit (Effect.clear view)
  match w.activeView with
  | none => some w
  | some activeName =>
    if activeName = namespaceViewName then namespaceConfigRender view w
    else if ¬ w.GetView namespaceViewName then some w
    else
      let selectedNamespace := w.selected namespaceViewName
      let selected := w.selected activeName
      let resource :=
        if activeName = deploymentViewName then "deployment"
        else if activeName = podViewName then "pod"
        else ""
      if resource = "" then some w
      else
        match selected with
        | none => some (showPleaseSelected view resource w)
        | some selected =>
          if selectedNamespace.isSome then
            let selectedName := formatSelectedName selected 0
            if selectedName = "" then some (showPleaseSelected view resource w)
            else some (w.run (Cli.Describe [resource, selectedName]) (some view)).2
          else
            let ns := formatSelectedName selected 0
            let selectedName := formatSelectedName selected 1
            if selectedName = "" then some (showPleaseSelected view resource w)
            else
              let w :=
                (w.run ((Cli.Describe [resource, selectedName]).WithNamespace ns) (some view)).2
              some (w.emit (Effect.reRender view))

/-- The flags every logs request carries. -/
def Request.logsFlags (r : Request) : Request :=
  ((r.SetFlag "all-containers" "true").SetFlag "tail" logsTail).SetFlag "prefix" "true"

def podLogsRender (view : String) (w : World) : Option World :=
  let selectedNamespace := w.selected namespaceViewName
  let selected := w.selected podViewName
  let resource := "pod"
  match selected with
  | none => some (showPleaseSelected view resource w)
  | some selected =>
    if selectedNamespace.isSome then
      let selectedName := formatSelectedName selected 0
      if selectedName = "" then some (showPleaseSelected view resource w)
      else
        let w := (w.run (Cli.Logs [selectedName]).logsFlags (some view)).2
        some (w.emit (Effect.reRender view))
    else
      let ns := formatSelectedName selected 0
      let selectedName := formatSelectedName selected 1
      if selectedName = "" then some (showPleaseSelected view resource w)
      else
        let w := (w.run ((Cli.Logs [selectedName]).WithNamespace ns).logsFlags (some view)).2
        some (w.emit (Effect.reRender view))

/-- The slice expression `s[lo:hi]` on a Go string, the bounds counted in
bytes; `none` is the slice-bounds-out-of-range panic. The text of the slice is
the one Go yields whenever both bounds fall between characters. -/
def goSlice (s : String) (lo hi : Int) : Option String :=
  if lo < 0 ∨ hi < lo ∨ hi > (s.utf8ByteSize : Int) then none
  else some (s.extract ⟨lo.toNat⟩ ⟨hi.toNat⟩)

/-- The part of `podsSelectorRenderHelper` after the selector-shaped fetch:
`labelJson` is the text the fetch answered with and `ns` the namespace read
from the selected row, empty when a namespace is selected. -/
def podsSelectorRenderLabels (cmdFunc : String → List String → World → Option World)
    (view resource ns labelJson : String) (w : World) : Option World :=
  if labelJson = "" then some (w.emit (Effect.write view "Pods not found."))
  else
    match goSlice labelJson 1 ((labelJson.utf8ByteSize : Int) - 1) with
    | none => none
    | some inner =>
      let labelsArr := w.LabelsToStringArr inner
      if labelsArr.length = 0 then some (showPleaseSelected view resource w)
      else
        let ns := if ns = "" then w.cliNamespace else ns
        cmdFunc ns labelsArr w

def podsSelectorRenderHelper (cmdFunc : String → List String → World → Option World)
    (view : String) (w : World) : Option World :=
  match w.activeView with
  | none => some w
  | some activeName =>
    if activeName = namespaceViewName then namespaceConfigRender view w
    else if ¬ w.GetView namespaceViewName then some w
    else
      let selectedNamespace := w.selected namespaceViewName
      let selected := w.selected activeName
      let (resource, jsonPath) :=
        if activeName = serviceViewName then
          ("service", "jsonpath=\x27\x7b.spec.selector\x7d\x27")
        else if activeName = deploymentViewName then
          ("deployment", "jsonpath=\x27\x7b.spec.selector.matchLabels\x7d\x27")
        else ("", "")
      if resource = "" then some w
      else
        match selected with
        | none => some (showPleaseSelected view resource w)
        | some selected =>
          if selectedNamespace.isSome then
            let selectedName := formatSelectedName selected 0
            if selectedName = "" then some (showPleaseSelected view resource w)
            else
              let (labelJson, w) :=
                w.run ((Cli.Get [resource, selectedName]).SetFlag "output" jsonPath) none
              podsSelectorRenderLabels cmdFunc view resource "" labelJson w
          else
            let ns := formatSelectedName selected 0
            let selectedName := formatSelectedName selected 1
            if selectedName = "" then some (showPleaseSelected view resource w)
            else
              let (labelJson, w) :=
                w.run
                  (((Cli.Get [resource, selectedName]).WithNamespace ns).SetFlag "output" jsonPath)
                  none
              podsSelectorRenderLabels cmdFunc view resource ns labelJson w

def podsLogsRender (view : String) (w : World) : Option World :=
  let w := w.emit (Effect.clear view)
  podsSelectorRenderHelper
    (fun ns labelsArr w =>
      let cmd := (Cli.Logs []).WithNamespace ns
      let cmd := cmd.SetFlag "selector" (stringsJoin labelsArr ",")
      let w := (w.run cmd.logsFlags (some view)).2
      some (w.emit (Effect.reRender view)))
    view w

def labelsPodsRender (view : String) (w : World) : Option World :=
  let w := w.emit (Effect.clear view)
  podsSelectorRenderHelper
    (fun ns labelsArr w =>
      let cmd := (Cli.Get ["pods"]).WithNamespace ns
      let cmd := cmd.SetFlag "selector" (stringsJoin labelsArr ",")
      let cmd := cmd.SetFlag "output" "wide"
      let w := (w.run cmd (some view)).2
      some (w.emit (Effect.reRender view)))
    view w

def topPodsRender (view : String) (w : World) : Option World :=
  let w := w.emit (Effect.clear view)
  podsSelectorRenderHelper
    (fun ns labelsArr w =>
      let cmd := (Cli.TopPod []).WithNamespace ns
      let cmd := cmd.SetFlag "selector" (stringsJoin labelsArr ",")
      let w := (w.run cmd (some view)).2
      some (w.emit (Effect.reRender view)))
    view w

/-! ## Dispatch -/

/-- The render routines that `detailRenderMap` binds, by name. -/
inductive Routine where
  | clusterNodesRender
  | topNodesRender
  | deploymentRender
  | podRender
  | configRender
  | labelsPodsRender
  | podsLogsRender
  | topPodsRender
  | describeRender
  | podLogsRender
deriving DecidableEq, Repr

/-- The routine a name of the dispatch table stands for. -/
def Routine.call : Routine → String → World → Option World
  | .clusterNodesRender => Lazykube.clusterNodesRender
  | .topNodesRender => Lazykube.topNodesRender
  | .deploymentRender => Lazykube.deploymentRender
  | .podRender => Lazykube.podRender
  | .configRender => Lazykube.configRender
  | .labelsPodsRender => Lazykube.labelsPodsRender
  | .podsLogsRender => Lazykube.podsLogsRender
  | .topPodsRender => Lazykube.topPodsRender
  | .describeRender => Lazykube.describeRender
  | .podLogsRender => Lazykube.podLogsRender

/-- The table `detailRenderMap`, its entries in the order of the map literal. -/
def detailRenderMap : List (String × Routine) :=
  [ (navigationPath [clusterInfoViewName, "Nodes"], .clusterNodesRender),
    (navigationPath [clusterInfoViewName, "Top Nodes"], .topNodesRender),
    (navigationPath [namespaceViewName, "Deployments"], .deploymentRender),
    (navigationPath [namespaceViewName, "Pods"], .podRender),
    (navigationPath [namespaceViewName, "Config"], .configRender),
    (navigationPath [serviceViewName, "Config"], .configRender),
    (navigationPath [serviceViewName, "Pods"], .labelsPodsRender),
    (navigationPath [serviceViewName, "Pods Log"], .podsLogsRender),
    (navigationPath [serviceViewName, "Top Pods"], .topPodsRender),
    (navigationPath [deploymentViewName, "Config"], .configRender),
    (navigationPath [deploymentViewName, "Pods"], .labelsPodsRender),
    (navigationPath [deploymentViewName, "Describe"], .describeRender),
    (navigationPath [deploymentViewName, "Pods Log"], .podsLogsRender),
    (navigationPath [deploymentViewName, "Top Pods"], .topPodsRender),
    (navigationPath [podViewName, "Config"], .configRender),
    (navigationPath [podViewName, "Log"], .podLogsRender),
    (navigationPath [podViewName, "Describe"], .describeRender) ]

/-- The detail pane refresh. The flag of the result tells whether the Go
function returned a non-nil error. -/
def detailRender (view : String) (w : World) : Option (Bool × World) :=
  if ¬ w.GetView detailViewName then some (true, w)
  else
    let w := w.emit (Effect.clear detailViewName)
    match w.activeView with
    | none => some (false, w)
    | some activeName =>
      match detailRenderMap.lookup (navigationPath [activeName, w.activeNavigationOpt]) with
      | some renderFunc => (renderFunc.call view w).map fun w => (false, w)
      | none => some (false, w)

/-! ## Spec-side definitions and sample worlds -/

/-- The text `navigationRender` paints for the panel `v` at option index `index`. -/
def navigationStrip (index : Int) (v : String) : String :=
  stringsJoin (colorfulOptions index (viewNavigationMap v) 0) OptSeparator

/-- A world in which the Pod panel is active and the detail pane is scrolled
to (0, 5). -/
def switchNavigationOriginWorld : World :=
  { World.initial functionViews with activeView := some podViewName, detailOrigin := (0, 5) }

/-- A world in which the Pod panel is focused while Service is the active
view, at its option 2 and with the detail pane scrolled down. -/
def focusPodWorld : World :=
  { World.initial functionViews with
    currentView := some podViewName, activeView := some serviceViewName,
    navigationIndex := 2, activeNavigationOpt := "Pods Log", detailOrigin := (0, 5) }

/-- A world in which every function panel holds a selection. -/
def allSelectedWorld : World :=
  { World.initial functionViews with selected := fun n => some n }

/-- The events of the navigation strip: a redraw while `focus` is the focused
panel (none when nothing is focused), painted into `view`, and a click at
cursor column `cx`. -/
inductive Event where
  | redraw (view : String) (focus : Option String)
  | click (cx : Int)
deriving DecidableEq, Repr

/-- The callback an event runs. -/
def Event.step : Event → World → Option World
  | .redraw view focus, w => navigationRender view { w with currentView := focus }
  | .click cx, w => navigationOnClick cx w

/-- Running a sequence of events. The flag travelling with the world records
whether a click has happened since the active view was last set or changed;
`none` is a runtime panic on the way. -/
def runEvents : List Event → World × Bool → Option (World × Bool)
  | [], s => some s
  | e :: es, (w, clicked) =>
    match e.step w with
    | none => none
    | some w1 =>
      let clicked1 :=
        if w1.activeView ≠ w.activeView then false
        else
          match e with
          | .click _ => true
          | .redraw _ _ => clicked
      runEvents es (w1, clicked1)

/-- The invariant of the navigation state: with no active view the index is 0
and the label empty; with an active view, that view is a function panel, the
index is valid for its options and the label is the option at the index. -/
def NavigationInvariant (w : World) : Prop :=
  match w.activeView with
  | none => w.navigationIndex = 0 ∧ w.activeNavigationOpt = ""
  | some v =>
    v ∈ functionViews ∧ 0 ≤ w.navigationIndex ∧
    w.navigationIndex < ((viewNavigationMap v).length : Int) ∧
    (viewNavigationMap v)[w.navigationIndex.toNat]? = some w.activeNavigationOpt

/-- A sample run: the Pod panel gains focus, the strip is clicked at column 5,
then the Service panel gains focus and the strip is clicked at column 8. -/
def sampleEvents : List Event :=
  [Event.redraw "navigation" (some podViewName), Event.click 5,
   Event.redraw "navigation" (some serviceViewName), Event.click 8]

/-- The state the sample run ends in. -/
def sampleFinal : World × Bool :=
  (runEvents sampleEvents (World.initial functionViews, false)).getD
    (World.initial functionViews, false)

/-- The strip as painted, colour escape codes left out: the options of the
panel in declaration order joined by the separator. -/
def plainStrip (v : String) : String :=
  stringsJoin (viewNavigationMap v) OptSeparator

/-- The columns option `i` occupies in the painted strip, first and last: the
options are laid out left to right, each as wide as its label, with the
separator between neighbours. -/
def renderSpan : List String → Nat → Int × Int
  | [], _ => (0, -1)
  | opt :: _, 0 => (0, (opt.length : Int) - 1)
  | opt :: rest, i + 1 =>
    let shift : Int := (opt.length : Int) + (OptSeparator.length : Int)
    ((renderSpan rest i).1 + shift, (renderSpan rest i).2 + shift)

/-- A world whose active view is the Service panel, at option 0. -/
def serviceActiveWorld : World :=
  { World.initial functionViews with
    currentView := some serviceViewName, activeView := some serviceViewName,
    navigationIndex := 0, activeNavigationOpt := "Config" }

/-- A world in which the Service panel is active with the row of the service
`web` selected, no namespace selected, and the query service answers every
request with the one character `x`. -/
def oneCharAnswerWorld : World :=
  { World.initial (detailViewName :: functionViews) with
    currentView := some serviceViewName, activeView := some serviceViewName,
    navigationIndex := 1, activeNavigationOpt := "Pods",
    selected := fun n => if n = serviceViewName then some "default   web   ClusterIP" else none,
    service := fun _ => "x" }

/-- A world with all panels registered in which the Pod panel is active at its
option `Top`. -/
def podTopWorld : World :=
  { World.initial (detailViewName :: functionViews) with
    currentView := some podViewName, activeView := some podViewName,
    navigationIndex := 2, activeNavigationOpt := "Top" }

/-- The resource kind of a panel: Service, Deployment and Pod have the kinds
`service`, `deployment` and `pod`; the other panels have none. -/
def resourceKind (v : String) : String :=
  if v = serviceViewName then "service"
  else if v = deploymentViewName then "deployment"
  else if v = podViewName then "pod"
  else ""

/-- The panels that list resources of a kind. -/
def resourceViews : List String := [serviceViewName, deploymentViewName, podViewName]

/-- The scenario of the pod log: the Pod panel is active, no namespace is
selected and a row of the all-namespaces listing is selected in the Pod
panel. -/
def podLogScenario : World :=
  { World.initial (detailViewName :: functionViews) with
    currentView := some podViewName, activeView := some podViewName,
    navigationIndex := 0, activeNavigationOpt := "Log",
    selected := fun n =>
      if n = podViewName then some "kube-system   mypod-abc123   1/1   Running" else none }

/-- The scenario of the deployment configuration: the Deployment panel is
active, the namespace `kube-system` is selected in the Namespace panel and a
row of the listing is selected in the Deployment panel. -/
def deploymentConfigScenario : World :=
  { World.initial (detailViewName :: functionViews) with
    currentView := some deploymentViewName, activeView := some deploymentViewName,
    navigationIndex := 0, activeNavigationOpt := "Config",
    selected := fun n =>
      if n = namespaceViewName then some "kube-system"
      else if n = deploymentViewName then some "web-deploy   3/3   ..."
      else none }

/-- The deployment scenario with a blank row selected in the Namespace panel. -/
def blankNamespaceScenario : World :=
  { deploymentConfigScenario with
    selected := fun n =>
      if n = namespaceViewName then some "   "
      else if n = deploymentViewName then some "web-deploy   3/3   ..."
      else none }

/-- The scenario of the unselected service: the Service panel is active at its
option `Pods` with no row selected. -/
def serviceUnselectedScenario : World :=
  { World.initial (detailViewName :: functionViews) with
    currentView := some serviceViewName, activeView := some serviceViewName,
    navigationIndex := 1, activeNavigationOpt := "Pods" }

/-- The initial world, all panels registered, with the detail pane focused:
a panel outside the function set. -/
def detailFocusedWorld : World :=
  { World.initial (detailViewName :: functionViews) with currentView := some detailViewName }

/-! ## Properties of the navigation state -/

theorem goIndex_of_lt (xs : List String) (i : Int) (h0 : 0 ≤ i) (h1 : i < (xs.length : Int)) :
    ∃ opt, xs[i.toNat]? = some opt ∧ goIndex xs i = some opt := by
  have hlt : i.toNat < xs.length := by omega
  refine ⟨xs[i.toNat], List.getElem?_eq_getElem hlt, ?_⟩
  unfold goIndex
  rw [if_neg (by omega)]
  exact List.getElem?_eq_getElem hlt

/-- C6, as stated, fails. With the Pod panel active and the detail pane
scrolled to (0, 5), `switchNavigation` at the bad indices -1 and 4 returns the
empty string and keeps index and label, but the scroll origin is (0, 0)
afterwards. -/
theorem switchNavigation_bad_index_moves_origin :
    switchNavigationOriginWorld.activeView = some podViewName ∧
    switchNavigationOriginWorld.detailOrigin = (0, 5) ∧
    (switchNavigation (-1) switchNavigationOriginWorld).map
      (fun r => (r.1, r.2.navigationIndex, r.2.activeNavigationOpt, r.2.detailOrigin))
      = some ("", 0, "", (0, 0)) ∧
    (switchNavigation 4 switchNavigationOriginWorld).map
      (fun r => (r.1, r.2.navigationIndex, r.2.activeNavigationOpt, r.2.detailOrigin))
      = some ("", 0, "", (0, 0)) := by
  decide

/-- C6, amended. With an active view, `switchNavigation` resets the scroll
origin of the detail pane to (0, 0) on every call. At an index that is
negative or not below the number of options of the active view it returns the
empty string and changes nothing else; at a valid index it sets the index and
the label to the option at that index and returns that option. -/
theorem switchNavigation_index (w : World) (index : Int) (name : String)
    (hactive : w.activeView = some name) :
    ((index < 0 ∨ index ≥ ((viewNavigationMap name).length : Int)) →
      switchNavigation index w = some ("", { w with detailOrigin := (0, 0) })) ∧
    ((0 ≤ index ∧ index < ((viewNavigationMap name).length : Int)) →
      ∃ opt, (viewNavigationMap name)[index.toNat]? = some opt ∧
        switchNavigation index w =
          some (opt, { w with detailOrigin := (0, 0), navigationIndex := index,
                              activeNavigationOpt := opt })) := by
  constructor
  · rintro (h | h)
    · simp [switchNavigation, h]
    · by_cases hneg : index < 0
      · simp [switchNavigation, hneg]
      · simp [switchNavigation, hneg, hactive, h]
  · rintro ⟨h0, h1⟩
    obtain ⟨opt, hopt, hgo⟩ := goIndex_of_lt _ _ h0 h1
    refine ⟨opt, hopt, ?_⟩
    simp [switchNavigation, hactive, hgo, not_lt.mpr h0, h1]

theorem functionViews_options (v : String) (hv : v ∈ functionViews) :
    functionViews.contains v = true ∧
    ∃ o rest, viewNavigationMap v = o :: rest ∧ ∀ x ∈ o :: rest, x ≠ "" := by
  refine ⟨by simpa using hv, ?_⟩
  have key : viewNavigationMap v ≠ [] ∧ ∀ x ∈ viewNavigationMap v, x ≠ "" := by
    simp only [functionViews, List.mem_cons, List.mem_singleton, List.not_mem_nil, or_false] at hv
    rcases hv with rfl | rfl | rfl | rfl | rfl <;> decide
  obtain ⟨o, rest, h⟩ := List.exists_cons_of_ne_nil key.1
  exact ⟨o, rest, h, h ▸ key.2⟩

theorem navigationRender_same (view v : String) (w : World) (hv : v ∈ functionViews)
    (hcur : w.currentView = some v) (hact : w.activeView = some v)
    (hopt : w.activeNavigationOpt ≠ "") :
    navigationRender view w = some { w with
      trace := w.trace ++ [Effect.clear view,
        Effect.write view (navigationStrip w.navigationIndex v)] } := by
  obtain ⟨hc, -⟩ := functionViews_options v hv
  cases w
  simp only at hcur hact hopt
  subst hcur hact
  simp [navigationRender, navigationRenderActiveView, hc, hopt, World.emit, navigationStrip]

theorem navigationRender_label (view v : String) (w : World) (hv : v ∈ functionViews)
    (hcur : w.currentView = some v) (hact : w.activeView = some v)
    (hopt : w.activeNavigationOpt = "") (opt : String)
    (hidx : goIndex (viewNavigationMap v) w.navigationIndex = some opt) :
    navigationRender view w = some { w with
      activeNavigationOpt := opt,
      trace := w.trace ++ [Effect.clear view,
        Effect.write view (navigationStrip w.navigationIndex v)] } := by
  obtain ⟨hc, -⟩ := functionViews_options v hv
  cases w
  simp only at hcur hact hopt hidx
  subst hcur hact hopt
  simp [navigationRender, navigationRenderActiveView, hc, hidx, World.emit, navigationStrip]

theorem navigationRender_change (view v : String) (w : World) (hv : v ∈ functionViews)
    (hcur : w.currentView = some v) (hact : w.activeView ≠ some v)
    (hready : w.activeNavigationOpt ≠ "" ∨
      (0 ≤ w.navigationIndex ∧ w.navigationIndex < ((viewNavigationMap v).length : Int))) :
    ∃ o rest, viewNavigationMap v = o :: rest ∧
    navigationRender view w = some { w with
      activeView := some v, detailOrigin := (0, 0), navigationIndex := 0,
      activeNavigationOpt := o,
      trace := w.trace ++ [Effect.clear view, Effect.write view (navigationStrip 0 v)] } := by
  obtain ⟨hc, o, rest, hopts, -⟩ := functionViews_options v hv
  refine ⟨o, rest, hopts, ?_⟩
  have hgo0 : goIndex (o :: rest) 0 = some o := by simp [goIndex]
  have hlen : ¬ ((rest.length : Int) + 1 ≤ 0) := by omega
  by_cases hopt : w.activeNavigationOpt = ""
  · have hr := hready.resolve_left (by simpa using hopt)
    obtain ⟨opt, -, hgo⟩ := goIndex_of_lt _ _ hr.1 hr.2
    rw [hopts] at hgo
    simp [navigationRender, navigationRenderActiveView, hcur, hv, hc, hact, hopt, hopts, hgo, switchNavigation, hgo0, hlen, World.emit,
      navigationStrip]
  · simp [navigationRender, navigationRenderActiveView, hcur, hv, hc, hact, hopt, hopts, switchNavigation, hgo0, hlen, World.emit,
      navigationStrip]

theorem goIndex_mem (xs : List String) (i : Int) (opt : String)
    (h : goIndex xs i = some opt) : opt ∈ xs := by
  unfold goIndex at h
  split at h
  · exact absurd h (by simp)
  · exact List.getElem?_mem h

/-- C4. A strip redraw while one of the five function panels `v` is focused,
from a state whose label is set or whose index is valid for `v` (every state
that satisfies `NavigationInvariant`, so every state a run reaches without a
panic, is such): the
redraw returns; when `v` is not the active view
it becomes the active view with index 0 and the first option of `v` as label;
when `v` is the active view already and the label is set, active view, index,
label and scroll origin stay as they are; and a second redraw with the same
focus only repaints the strip, every component of the state staying as the
first redraw left it. -/
theorem navigationRender_focus_change (view v : String) (w : World) (hv : v ∈ functionViews)
    (hcur : w.currentView = some v)
    (hready : w.activeNavigationOpt ≠ "" ∨
      (0 ≤ w.navigationIndex ∧ w.navigationIndex < ((viewNavigationMap v).length : Int))) :
    ∃ w1, navigationRender view w = some w1 ∧
      (w.activeView ≠ some v →
        w1.activeView = some v ∧ w1.navigationIndex = 0 ∧
        (viewNavigationMap v).head? = some w1.activeNavigationOpt) ∧
      (w.activeView = some v → w.activeNavigationOpt ≠ "" →
        w1.activeView = w.activeView ∧ w1.navigationIndex = w.navigationIndex ∧
        w1.activeNavigationOpt = w.activeNavigationOpt ∧ w1.detailOrigin = w.detailOrigin) ∧
      w1.currentView = some v ∧
      ∃ strip, navigationRender view w1 =
        some { w1 with trace := w1.trace ++ [Effect.clear view, Effect.write view strip] } := by
  obtain ⟨-, o, rest, hopts, hne⟩ := functionViews_options v hv
  by_cases hact : w.activeView = some v
  · by_cases hopt : w.activeNavigationOpt = ""
    · have hr := hready.resolve_left (by simpa using hopt)
      obtain ⟨opt, -, hgo⟩ := goIndex_of_lt _ _ hr.1 hr.2
      have hmem : opt ≠ "" := hne opt (hopts ▸ goIndex_mem _ _ _ hgo)
      refine ⟨_, navigationRender_label view v w hv hcur hact hopt opt hgo, ?_, ?_, hcur, ?_⟩
      · intro h; exact absurd hact h
      · intro _ h; exact absurd hopt h
      · exact ⟨_, navigationRender_same view v _ hv hcur hact hmem⟩
    · refine ⟨_, navigationRender_same view v w hv hcur hact hopt, ?_, ?_, hcur, ?_⟩
      · intro h; exact absurd hact h
      · intro _ _; exact ⟨rfl, rfl, rfl, rfl⟩
      · exact ⟨_, navigationRender_same view v _ hv hcur hact hopt⟩
  · obtain ⟨o2, rest2, hopts2, hrun⟩ := navigationRender_change view v w hv hcur hact hready
    have ho : o2 ≠ "" := by
      rw [hopts] at hopts2
      exact hne o2 (by rw [hopts2]; exact List.mem_cons_self _ _)
    refine ⟨_, hrun, ?_, ?_, hcur, ?_⟩
    · intro _; exact ⟨rfl, rfl, by rw [hopts2]; rfl⟩
    · intro h; exact absurd h hact
    · exact ⟨_, navigationRender_same view v _ hv hcur rfl ho⟩

theorem switchNavigation_index_witness :
    focusPodWorld.activeView = some serviceViewName ∧
    ((((2 : Int) < 0 ∨ (2 : Int) ≥ ((viewNavigationMap serviceViewName).length : Int)) →
      switchNavigation 2 focusPodWorld = some ("", { focusPodWorld with detailOrigin := (0, 0) })) ∧
    ((0 ≤ (2 : Int) ∧ (2 : Int) < ((viewNavigationMap serviceViewName).length : Int)) →
      ∃ opt, (viewNavigationMap serviceViewName)[(2 : Int).toNat]? = some opt ∧
        switchNavigation 2 focusPodWorld =
          some (opt, { focusPodWorld with detailOrigin := (0, 0), navigationIndex := 2,
                                          activeNavigationOpt := opt }))) :=
  ⟨rfl, switchNavigation_index focusPodWorld 2 serviceViewName rfl⟩

theorem navigationRender_focus_change_witness :
    podViewName ∈ functionViews ∧ focusPodWorld.currentView = some podViewName ∧
    (focusPodWorld.activeNavigationOpt ≠ "" ∨
      (0 ≤ focusPodWorld.navigationIndex ∧
        focusPodWorld.navigationIndex < ((viewNavigationMap podViewName).length : Int))) ∧
    ∃ w1, navigationRender "navigation" focusPodWorld = some w1 ∧
      (focusPodWorld.activeView ≠ some podViewName →
        w1.activeView = some podViewName ∧ w1.navigationIndex = 0 ∧
        (viewNavigationMap podViewName).head? = some w1.activeNavigationOpt) ∧
      (focusPodWorld.activeView = some podViewName → focusPodWorld.activeNavigationOpt ≠ "" →
        w1.activeView = focusPodWorld.activeView ∧
        w1.navigationIndex = focusPodWorld.navigationIndex ∧
        w1.activeNavigationOpt = focusPodWorld.activeNavigationOpt ∧
        w1.detailOrigin = focusPodWorld.detailOrigin) ∧
      w1.currentView = some podViewName ∧
      ∃ strip, navigationRender "navigation" w1 =
        some { w1 with
          trace := w1.trace ++ [Effect.clear "navigation", Effect.write "navigation" strip] } :=
  ⟨by decide, rfl, Or.inl (by decide),
    navigationRender_focus_change "navigation" podViewName focusPodWorld (by decide) rfl
      (Or.inl (by decide))⟩

theorem onFocusClearSelectedLoop_eq (view : String) (l : List String) (w : World) :
    onFocusClearSelectedLoop view l w = { w with
      selected := fun n =>
        if n ∈ l ∧ n ≠ view ∧ n ≠ namespaceViewName ∧ w.GetView n = true then none
        else w.selected n } := by
  induction l generalizing w with
  | nil => simp [onFocusClearSelectedLoop]
  | cons a rest ih =>
    unfold onFocusClearSelectedLoop
    by_cases h1 : a = view ∨ a = namespaceViewName
    · rw [if_pos h1, ih]
      congr 1
      funext n
      by_cases hn : n = a
      · subst hn
        have : ¬ (n ≠ view ∧ n ≠ namespaceViewName ∧ w.GetView n = true) := by
          rintro ⟨h2, h3, -⟩
          rcases h1 with h | h
          · exact h2 h
          · exact h3 h
        simp only [List.mem_cons, true_or, true_and, if_neg this]
        split
        · rename_i h; exact absurd h.2 this
        · rfl
      · simp [hn]
    · rw [if_neg h1]
      by_cases h2 : w.GetView a = true
      · rw [if_neg (by simpa using h2), ih]
        congr 1
        funext n
        simp only [World.GetView] at h2 ⊢
        by_cases hn : n = a
        · subst hn
          have hv : n ≠ view := fun h => h1 (Or.inl h)
          have hns : n ≠ namespaceViewName := fun h => h1 (Or.inr h)
          have hmem : n ∈ w.panels := by simpa using h2
          simp [hv, hns, hmem]
        · simp [hn]
      · rw [if_pos (by simpa using h2), ih]
        congr 1
        funext n
        by_cases hn : n = a
        · subst hn
          simp [h2]
        · simp [hn]

/-- C5. After `onFocusClearSelected` for the panel `view`, with the five
function panels registered: the selection of the Namespace panel and the
selection of `view` are what they were, every other function panel has no
selection, the panels outside the function set keep theirs, and running the
operation again changes nothing. The operation is total, whatever the
selections were. -/
theorem onFocusClearSelected_frame (view : String) (w : World)
    (hpanels : ∀ p ∈ functionViews, w.GetView p = true) :
    (onFocusClearSelected view w).selected namespaceViewName = w.selected namespaceViewName ∧
    (onFocusClearSelected view w).selected view = w.selected view ∧
    (∀ p ∈ functionViews, p ≠ view → p ≠ namespaceViewName →
      (onFocusClearSelected view w).selected p = none) ∧
    (∀ p, p ∉ functionViews → (onFocusClearSelected view w).selected p = w.selected p) ∧
    onFocusClearSelected view (onFocusClearSelected view w) = onFocusClearSelected view w := by
  unfold onFocusClearSelected
  rw [onFocusClearSelectedLoop_eq, onFocusClearSelectedLoop_eq]
  refine ⟨by simp, by simp, ?_, ?_, ?_⟩
  · intro p hp h1 h2
    simp [hp, h1, h2, hpanels p hp]
  · intro p hp
    simp [hp]
  · congr 1
    funext n
    simp only [World.GetView]
    split <;> simp_all

theorem onFocusClearSelected_frame_witness :
    (∀ p ∈ functionViews, allSelectedWorld.GetView p = true) ∧
    ((onFocusClearSelected podViewName allSelectedWorld).selected namespaceViewName
      = allSelectedWorld.selected namespaceViewName ∧
    (onFocusClearSelected podViewName allSelectedWorld).selected podViewName
      = allSelectedWorld.selected podViewName ∧
    (∀ p ∈ functionViews, p ≠ podViewName → p ≠ namespaceViewName →
      (onFocusClearSelected podViewName allSelectedWorld).selected p = none) ∧
    (∀ p, p ∉ functionViews →
      (onFocusClearSelected podViewName allSelectedWorld).selected p = allSelectedWorld.selected p) ∧
    onFocusClearSelected podViewName (onFocusClearSelected podViewName allSelectedWorld)
      = onFocusClearSelected podViewName allSelectedWorld) :=
  ⟨by decide, onFocusClearSelected_frame podViewName allSelectedWorld (by decide)⟩

theorem switchNavigation_invariant (w : World) (i : Int) (r : String × World)
    (hinv : NavigationInvariant w) (h : switchNavigation i w = some r) :
    NavigationInvariant r.2 ∧ r.2.activeView = w.activeView := by
  rcases w with ⟨panels, cur, sel, org, ns, svc, lab, av, idx, opt, tr⟩
  cases av with
  | none =>
    have hr : r = ("", ⟨panels, cur, sel, (0, 0), ns, svc, lab, none, idx, opt, tr⟩) := by
      simp only [switchNavigation] at h
      split at h <;> simp_all
    subst hr
    exact ⟨by simpa [NavigationInvariant] using hinv, rfl⟩
  | some v =>
    simp only [NavigationInvariant] at hinv
    simp only [switchNavigation] at h
    split at h
    · simp only [Option.some.injEq] at h; subst h
      exact ⟨by simpa [NavigationInvariant] using hinv, rfl⟩
    · split at h
      · simp only [Option.some.injEq] at h; subst h
        exact ⟨by simpa [NavigationInvariant] using hinv, rfl⟩
      · rename_i h0 h1
        split at h
        · exact absurd h (by simp)
        · rename_i o hgo
          simp only [Option.some.injEq] at h; subst h
          refine ⟨?_, rfl⟩
          simp only [NavigationInvariant]
          have hgo1 : (viewNavigationMap v)[i.toNat]? = some o := by
            unfold goIndex at hgo
            rw [if_neg h0] at hgo
            exact hgo
          exact ⟨hinv.1, by omega, by omega, hgo1⟩

theorem navigationOnClickLoop_invariant (cx sep halfSep : Int) (options : List String)
    (i preFix : Int) (w w1 : World) (hinv : NavigationInvariant w)
    (h : navigationOnClickLoop cx sep halfSep options i preFix w = some w1) :
    NavigationInvariant w1 ∧ w1.activeView = w.activeView := by
  induction options generalizing i preFix with
  | nil =>
    simp only [navigationOnClickLoop, Option.some.injEq] at h
    subst h
    exact ⟨hinv, rfl⟩
  | cons opt rest ih =>
    simp only [navigationOnClickLoop] at h
    split at h
    · cases hs : switchNavigation i w with
      | none => simp [hs] at h
      | some r =>
        simp only [hs, Option.map_some', Option.some.injEq] at h
        subst h
        exact switchNavigation_invariant w i r hinv hs
    · exact ih _ _ h

theorem invariant_label_ne (w : World) (v : String) (hinv : NavigationInvariant w)
    (hact : w.activeView = some v) : v ∈ functionViews ∧ w.activeNavigationOpt ≠ "" := by
  simp only [NavigationInvariant, hact] at hinv
  obtain ⟨-, o, rest, hopts, hne⟩ := functionViews_options v hinv.1
  exact ⟨hinv.1, hne _ (hopts ▸ List.getElem?_mem hinv.2.2.2)⟩

theorem invariant_ready (w : World) (v : String) (hinv : NavigationInvariant w)
    (hv : v ∈ functionViews) :
    w.activeNavigationOpt ≠ "" ∨
      (0 ≤ w.navigationIndex ∧ w.navigationIndex < ((viewNavigationMap v).length : Int)) := by
  cases hact : w.activeView with
  | none =>
    have hi : w.navigationIndex = 0 ∧ w.activeNavigationOpt = "" := by
      simpa [NavigationInvariant, hact] using hinv
    obtain ⟨-, o, rest, hopts, -⟩ := functionViews_options v hv
    right
    rw [hi.1, hopts]
    simp
  | some a => exact Or.inl (invariant_label_ne w a hinv hact).2

theorem navigationRender_unfocused (view : String) (w : World) (v : String)
    (hcur : ∀ cv, w.currentView = some cv → cv ∉ functionViews)
    (hact : w.activeView = some v) (hopt : w.activeNavigationOpt ≠ "") :
    navigationRender view w = some { w with
      trace := w.trace ++ [Effect.clear view,
        Effect.write view (navigationStrip w.navigationIndex v)] } := by
  rcases w with ⟨panels, cur, sel, org, ns, svc, lab, av, idx, opt, tr⟩
  simp only at hcur hact hopt
  subst hact
  cases cur with
  | none => simp [navigationRender, navigationRenderActiveView, hopt, World.emit, navigationStrip]
  | some cv =>
    have := hcur cv rfl
    simp [navigationRender, navigationRenderActiveView, hopt, World.emit, navigationStrip, this]

theorem navigationRender_first (view : String) (w w1 : World)
    (hact : w.activeView = none) (hidx : w.navigationIndex = 0)
    (hopt : w.activeNavigationOpt = "")
    (hcur : ∀ cv, w.currentView = some cv → cv ∉ functionViews)
    (h : navigationRender view w = some w1) :
    w1.activeView = some clusterInfoViewName ∧ w1.navigationIndex = 0 ∧
    w1.activeNavigationOpt = "Nodes" := by
  rcases w with ⟨panels, cur, sel, org, ns, svc, lab, av, idx, opt, tr⟩
  simp only at hcur hact hidx hopt
  subst hact hidx hopt
  cases cur with
  | none =>
    by_cases hp : clusterInfoViewName ∈ panels
    · simp [navigationRender, navigationRenderActiveView, World.FocusView, World.GetView, hp, World.emit, goIndex,
        viewNavigationMap] at h
      subst h
      simp
    · simp [navigationRender, navigationRenderActiveView, World.FocusView, World.GetView, hp] at h
  | some cv =>
    have hcv := hcur cv rfl
    have hmap : viewNavigationMap cv = [] := by
      simp only [functionViews, List.mem_cons, List.mem_singleton, List.not_mem_nil, or_false,
        not_or] at hcv
      simp [viewNavigationMap, hcv]
    simp [navigationRender, navigationRenderActiveView, hcv, hmap, goIndex] at h

theorem Event.step_invariant (e : Event) (w w1 : World) (hinv : NavigationInvariant w)
    (h : e.step w = some w1) :
    NavigationInvariant w1 ∧
    (w1.activeView ≠ w.activeView → w1.navigationIndex = 0) ∧
    (∀ view focus, e = Event.redraw view focus → w1.activeView = w.activeView →
      w1.navigationIndex = w.navigationIndex) := by
  cases e with
  | click cx =>
    simp only [Event.step, navigationOnClick] at h
    cases hact : w.activeView with
    | none => simp [hact] at h
    | some v =>
      simp only [hact] at h
      have := navigationOnClickLoop_invariant _ _ _ _ _ _ w w1 hinv h
      refine ⟨this.1, fun hne => absurd (this.2.trans hact) hne, ?_⟩
      intro view focus he
      exact absurd he (by simp)
  | redraw view focus =>
    simp only [Event.step] at h
    have hinv1 : NavigationInvariant { w with currentView := focus } := hinv
    have hstay : ∀ v, w.activeView = some v →
        (∀ cv, focus = some cv → cv ∉ functionViews) →
        w1 = { w with
          trace := w.trace ++ [Effect.clear view,
            Effect.write view (navigationStrip w.navigationIndex v)],
          currentView := focus } := by
      intro v hact hcur
      have hl := (invariant_label_ne _ v hinv1 hact).2
      have := navigationRender_unfocused view { w with currentView := focus } v hcur hact hl
      rw [this] at h
      exact (Option.some.inj h).symm
    have hfirst : w.activeView = none →
        (∀ cv, focus = some cv → cv ∉ functionViews) →
        NavigationInvariant w1 ∧ w1.navigationIndex = 0 := by
      intro hact hcur
      have hi : w.navigationIndex = 0 ∧ w.activeNavigationOpt = "" := by
        simpa [NavigationInvariant, hact] using hinv
      obtain ⟨h1, h2, h3⟩ :=
        navigationRender_first view { w with currentView := focus } w1 hact hi.1 hi.2 hcur h
      refine ⟨?_, h2⟩
      simp only [NavigationInvariant, h1, h2, h3]
      decide
    have hother : (∀ cv, focus = some cv → cv ∉ functionViews) →
        NavigationInvariant w1 ∧
        (w1.activeView ≠ w.activeView → w1.navigationIndex = 0) ∧
        (w1.activeView = w.activeView → w1.navigationIndex = w.navigationIndex) := by
      intro hcur
      cases hact : w.activeView with
      | none =>
        obtain ⟨h1, h2⟩ := hfirst hact hcur
        have hi : w.navigationIndex = 0 := by
          have : w.navigationIndex = 0 ∧ w.activeNavigationOpt = "" := by
            simpa [NavigationInvariant, hact] using hinv
          exact this.1
        exact ⟨h1, fun _ => h2, fun _ => h2.trans hi.symm⟩
      | some v =>
        have := hstay v hact hcur
        subst this
        refine ⟨hinv, fun hne => absurd hact hne, fun _ => rfl⟩
    have key : NavigationInvariant w1 ∧
        (w1.activeView ≠ w.activeView → w1.navigationIndex = 0) ∧
        (w1.activeView = w.activeView → w1.navigationIndex = w.navigationIndex) := by
      cases hf : focus with
      | none => exact hother (by simp [hf])
      | some cv =>
        by_cases hcv : cv ∈ functionViews
        · subst hf
          by_cases hact : w.activeView = some cv
          · have hl := (invariant_label_ne _ cv hinv1 hact).2
            have := navigationRender_same view cv { w with currentView := some cv } hcv rfl hact hl
            rw [this] at h
            have := (Option.some.inj h).symm
            subst this
            exact ⟨hinv, fun hne => absurd rfl hne, fun _ => rfl⟩
          · have hready := invariant_ready w cv hinv hcv
            obtain ⟨o, rest, hopts, hrun⟩ :=
              navigationRender_change view cv { w with currentView := some cv } hcv rfl hact hready
            rw [hrun] at h
            have := (Option.some.inj h).symm
            subst this
            refine ⟨?_, fun _ => rfl, fun he => absurd he.symm hact⟩
            simp only [NavigationInvariant]
            refine ⟨hcv, le_refl _, ?_, ?_⟩
            · rw [hopts]; simp
            · rw [hopts]; simp
        · exact hother (by intro cv2 h2; rw [hf] at h2; cases h2; exact hcv)
    exact ⟨key.1, key.2.1, fun _ _ _ => key.2.2⟩

theorem runEvents_invariant (es : List Event) (w : World) (clicked : Bool) (r : World × Bool)
    (hinv : NavigationInvariant w) (hzero : clicked = false → w.navigationIndex = 0)
    (h : runEvents es (w, clicked) = some r) :
    NavigationInvariant r.1 ∧ (r.2 = false → r.1.navigationIndex = 0) := by
  induction es generalizing w clicked with
  | nil =>
    simp only [runEvents, Option.some.injEq] at h
    subst h
    exact ⟨hinv, hzero⟩
  | cons e es ih =>
    simp only [runEvents] at h
    cases hs : e.step w with
    | none => simp [hs] at h
    | some w1 =>
      simp only [hs] at h
      obtain ⟨h1, h2, h3⟩ := Event.step_invariant e w w1 hinv hs
      refine ih w1 _ h1 ?_ h
      intro hc
      by_cases hne : w1.activeView = w.activeView
      · rw [if_neg (by simpa using hne)] at hc
        cases e with
        | click cx => simp at hc
        | redraw view focus =>
          simp only at hc
          rw [h3 view focus rfl hne]
          exact hzero hc
      · exact h2 hne

/-- The navigation invariant along the runs that end without a panic: in every
state such a run reaches from an initial state (no active view, index 0, empty
label), with no active view the index is 0 and the label empty; with an active
view `v`, the view is one of the function panels, the index is a valid index
into the options of `v`, the label is the option at that index, and the index
is 0 as long as no click has happened since `v` became the active view. -/
theorem navigation_valid_option (w0 : World) (es : List Event) (w : World) (clicked : Bool)
    (hinit : w0.activeView = none ∧ w0.navigationIndex = 0 ∧ w0.activeNavigationOpt = "")
    (hrun : runEvents es (w0, false) = some (w, clicked)) :
    (w.activeView = none → w.navigationIndex = 0 ∧ w.activeNavigationOpt = "") ∧
    ∀ v, w.activeView = some v →
      v ∈ functionViews ∧ 0 ≤ w.navigationIndex ∧
      w.navigationIndex < ((viewNavigationMap v).length : Int) ∧
      (viewNavigationMap v)[w.navigationIndex.toNat]? = some w.activeNavigationOpt ∧
      (clicked = false → w.navigationIndex = 0) := by
  have hinv0 : NavigationInvariant w0 := by
    simp only [NavigationInvariant, hinit.1]
    exact hinit.2
  obtain ⟨h1, h2⟩ := runEvents_invariant es w0 false (w, clicked) hinv0 (fun _ => hinit.2.1) hrun
  constructor
  · intro hact
    simpa [NavigationInvariant, hact] using h1
  · intro v hact
    simp only [NavigationInvariant, hact] at h1
    exact ⟨h1.1, h1.2.1, h1.2.2.1, h1.2.2.2, h2⟩

theorem navigation_valid_option_witness :
    ((World.initial functionViews).activeView = none ∧
      (World.initial functionViews).navigationIndex = 0 ∧
      (World.initial functionViews).activeNavigationOpt = "") ∧
    runEvents sampleEvents (World.initial functionViews, false)
      = some (sampleFinal.1, sampleFinal.2) ∧
    (sampleFinal.1.activeView, sampleFinal.1.navigationIndex, sampleFinal.1.activeNavigationOpt,
      sampleFinal.2) = (some serviceViewName, 1, "Pods", true) ∧
    ((sampleFinal.1.activeView = none →
        sampleFinal.1.navigationIndex = 0 ∧ sampleFinal.1.activeNavigationOpt = "") ∧
      ∀ v, sampleFinal.1.activeView = some v →
        v ∈ functionViews ∧ 0 ≤ sampleFinal.1.navigationIndex ∧
        sampleFinal.1.navigationIndex < ((viewNavigationMap v).length : Int) ∧
        (viewNavigationMap v)[sampleFinal.1.navigationIndex.toNat]?
          = some sampleFinal.1.activeNavigationOpt ∧
        (sampleFinal.2 = false → sampleFinal.1.navigationIndex = 0)) :=
  ⟨⟨rfl, rfl, rfl⟩, rfl, by decide,
    navigation_valid_option (World.initial functionViews) sampleEvents sampleFinal.1 sampleFinal.2
      ⟨rfl, rfl, rfl⟩ rfl⟩

/-- C1. The click handler does not invert the painted strip. In the strip of
the Service panel, `Config   Pods   Pods Log   Top Pods`, option 2 (`Pods Log`)
occupies columns 16 to 23, yet a click at column 23 selects option 3
(`Top Pods`); and columns 33 and 34, inside the span 27 to 34 of option 3,
select nothing. -/
theorem navigationOnClick_span_mismatch :
    plainStrip serviceViewName = "Config   Pods   Pods Log   Top Pods" ∧
    (viewNavigationMap serviceViewName)[2]? = some "Pods Log" ∧
    renderSpan (viewNavigationMap serviceViewName) 2 = (16, 23) ∧
    (((plainStrip serviceViewName).toList.drop 16).take 8 = "Pods Log".toList) ∧
    (navigationOnClick 23 serviceActiveWorld).map
      (fun w => (w.navigationIndex, w.activeNavigationOpt)) = some (3, "Top Pods") ∧
    renderSpan (viewNavigationMap serviceViewName) 3 = (27, 34) ∧
    (navigationOnClick 34 serviceActiveWorld).map
      (fun w => (w.navigationIndex, w.activeNavigationOpt)) = some (0, "Config") := by
  decide

/-- C8. A selector answer of exactly one character makes the selector-based
routines panic: the Service panel is active with a row selected, the query
service answers `x`, and `labelJson[1 : len(labelJson)-1]` is the slice
`[1:0]`, out of bounds, for each of Pods, Pods Log and Top Pods. -/
theorem podsSelectorRender_one_char_panics :
    oneCharAnswerWorld.service
      (((Cli.Get ["service", "web"]).WithNamespace "default").SetFlag "output"
        "jsonpath=\x27\x7b.spec.selector\x7d\x27") = "x" ∧
    goSlice "x" 1 (("x".utf8ByteSize : Int) - 1) = none ∧
    (labelsPodsRender detailViewName oneCharAnswerWorld).isNone = true ∧
    (podsLogsRender detailViewName oneCharAnswerWorld).isNone = true ∧
    (topPodsRender detailViewName oneCharAnswerWorld).isNone = true ∧
    (detailRender detailViewName oneCharAnswerWorld).isNone = true := by
  decide

theorem detailRenderMap_table :
    (∀ v ∈ functionViews, ∀ o ∈ viewNavigationMap v,
      (detailRenderMap.filter (fun e => e.1 = navigationPath [v, o])).length ≤ 1 ∧
      (detailRenderMap.lookup (navigationPath [v, o]) = none ↔ (v = podViewName ∧ o = "Top"))) ∧
    (∀ e ∈ detailRenderMap, ∃ v ∈ functionViews, ∃ o ∈ viewNavigationMap v,
      e.1 = navigationPath [v, o]) := by
  decide

/-- C10. For a function panel `v` and an option `o` of `v`, with the detail
pane registered: the dispatch table holds at most one entry under the key
`navigationPath(v, o)`; it holds none exactly for the Pod panel and `Top`;
`detailRender` clears the detail pane and then runs exactly the routine bound
to the key, or, when none is bound, does nothing more, so that nothing is
painted and no request issued; and every key of the table is the path of a
function panel and one of its options. -/
theorem detailRender_dispatch (view v o : String) (w : World)
    (hv : v ∈ functionViews) (ho : o ∈ viewNavigationMap v)
    (hdetail : w.GetView detailViewName = true)
    (hact : w.activeView = some v) (hopt : w.activeNavigationOpt = o) :
    (detailRenderMap.filter (fun e => e.1 = navigationPath [v, o])).length ≤ 1 ∧
    (detailRenderMap.lookup (navigationPath [v, o]) = none ↔ (v = podViewName ∧ o = "Top")) ∧
    (∀ r, detailRenderMap.lookup (navigationPath [v, o]) = some r →
      detailRender view w =
        (r.call view (w.emit (Effect.clear detailViewName))).map (fun w1 => (false, w1))) ∧
    (detailRenderMap.lookup (navigationPath [v, o]) = none →
      detailRender view w = some (false, { w with
        trace := w.trace ++ [Effect.clear detailViewName] })) ∧
    (∀ e ∈ detailRenderMap, ∃ v1 ∈ functionViews, ∃ o1 ∈ viewNavigationMap v1,
      e.1 = navigationPath [v1, o1]) := by
  refine ⟨(detailRenderMap_table.1 v hv o ho).1, (detailRenderMap_table.1 v hv o ho).2, ?_, ?_,
    detailRenderMap_table.2⟩
  · intro r hr
    simp [detailRender, hdetail, World.emit, hact, hopt, hr]
  · intro hr
    simp [detailRender, hdetail, World.emit, hact, hopt, hr]

theorem detailRender_dispatch_witness :
    podViewName ∈ functionViews ∧ "Top" ∈ viewNavigationMap podViewName ∧
    podTopWorld.GetView detailViewName = true ∧
    podTopWorld.activeView = some podViewName ∧ podTopWorld.activeNavigationOpt = "Top" ∧
    ((detailRenderMap.filter (fun e => e.1 = navigationPath [podViewName, "Top"])).length ≤ 1 ∧
    (detailRenderMap.lookup (navigationPath [podViewName, "Top"]) = none ↔
      (podViewName = podViewName ∧ "Top" = "Top")) ∧
    (∀ r, detailRenderMap.lookup (navigationPath [podViewName, "Top"]) = some r →
      detailRender detailViewName podTopWorld =
        (r.call detailViewName (podTopWorld.emit (Effect.clear detailViewName))).map
          (fun w1 => (false, w1))) ∧
    (detailRenderMap.lookup (navigationPath [podViewName, "Top"]) = none →
      detailRender detailViewName podTopWorld = some (false, { podTopWorld with
        trace := podTopWorld.trace ++ [Effect.clear detailViewName] })) ∧
    (∀ e ∈ detailRenderMap, ∃ v1 ∈ functionViews, ∃ o1 ∈ viewNavigationMap v1,
      e.1 = navigationPath [v1, o1])) :=
  ⟨by decide, by decide, by decide, rfl, rfl,
    detailRender_dispatch detailViewName podViewName "Top" podTopWorld (by decide) (by decide)
      (by decide) rfl rfl⟩

theorem rowFields_ne_empty (cs cur : List Char) : ∀ f ∈ rowFields cs cur, f ≠ "" := by
  have hmk : ∀ l : List Char, l ≠ [] → String.mk l.reverse ≠ "" := by
    intro l hl h
    have := congrArg String.length h
    simp at this
    exact hl this
  induction cs generalizing cur with
  | nil =>
    intro f hf
    simp only [rowFields] at hf
    split at hf
    · simp at hf
    · rename_i hc
      simp only [List.mem_singleton] at hf
      subst hf
      exact hmk cur hc
  | cons c cs ih =>
    intro f hf
    simp only [rowFields] at hf
    split at hf
    · split at hf
      · exact ih [] f hf
      · rename_i hc
        simp only [List.mem_cons] at hf
        rcases hf with rfl | hf
        · exact hmk cur hc
        · exact ih [] f hf
    · exact ih _ f hf

theorem formatSelectedName_of_field (row : String) (i : Nat) (name : String)
    (h : (rowFields row.toList [])[i]? = some name) :
    formatSelectedName row i = name ∧ name ≠ "" := by
  refine ⟨?_, rowFields_ne_empty _ _ name (List.getElem?_mem h)⟩
  unfold formatSelectedName
  rw [List.getD_eq_getElem?_getD, h]
  rfl

theorem formatSelectedName_of_short (row : String) (i : Nat)
    (h : (rowFields row.toList []).length ≤ i) : formatSelectedName row i = "" := by
  unfold formatSelectedName
  rw [List.getD_eq_getElem?_getD, List.getElem?_eq_none h]
  rfl

/-- C7. The Log path in all-namespaces mode: with no selection in the
Namespace panel and a row selected in the Pod panel, when the row has a field
0 and a field 1, `podLogsRender` issues exactly one request, a logs request
for the pod named by field 1 with namespace override field 0 and the flags
all-containers=true, tail=200, prefix=true, in that order, written into the
pane, and then asks for a redraw; when the row has fewer than two fields it
issues no request and paints the message asking to select a pod. -/
theorem podLogsRender_all_namespaces (view row : String) (w : World)
    (hns : w.selected namespaceViewName = none) (hsel : w.selected podViewName = some row) :
    (∀ ns name, (rowFields row.toList [])[0]? = some ns →
      (rowFields row.toList [])[1]? = some name →
      podLogsRender view w = some { w with
        trace := w.trace ++
          [Effect.run
            { namespaceOverride := some ns, verb := "logs", args := [name],
              flags := [("all-containers", "true"), ("tail", "200"), ("prefix", "true")] }
            (some view),
           Effect.reRender view] }) ∧
    ((rowFields row.toList []).length < 2 →
      podLogsRender view w = some { w with
        trace := w.trace ++ [Effect.write view "Please select a pod. "] }) := by
  constructor
  · intro ns name h0 h1
    obtain ⟨e0, -⟩ := formatSelectedName_of_field row 0 ns h0
    obtain ⟨e1, n1⟩ := formatSelectedName_of_field row 1 name h1
    simp [podLogsRender, hns, hsel, e0, e1, n1, World.run, World.emit, Request.logsFlags,
      Request.SetFlag, Request.WithNamespace, Cli.Logs, logsTail]
  · intro hlen
    have e1 := formatSelectedName_of_short row 1 (by omega)
    simp [podLogsRender, hns, hsel, e1, showPleaseSelected, World.emit]

theorem podLogsRender_all_namespaces_witness :
    podLogScenario.selected namespaceViewName = none ∧
    podLogScenario.selected podViewName = some "kube-system   mypod-abc123   1/1   Running" ∧
    (rowFields "kube-system   mypod-abc123   1/1   Running".toList [])
      = ["kube-system", "mypod-abc123", "1/1", "Running"] ∧
    ((∀ ns name,
      (rowFields "kube-system   mypod-abc123   1/1   Running".toList [])[0]? = some ns →
      (rowFields "kube-system   mypod-abc123   1/1   Running".toList [])[1]? = some name →
      podLogsRender detailViewName podLogScenario = some { podLogScenario with
        trace := podLogScenario.trace ++
          [Effect.run
            { namespaceOverride := some ns, verb := "logs", args := [name],
              flags := [("all-containers", "true"), ("tail", "200"), ("prefix", "true")] }
            (some detailViewName),
           Effect.reRender detailViewName] }) ∧
    ((rowFields "kube-system   mypod-abc123   1/1   Running".toList []).length < 2 →
      podLogsRender detailViewName podLogScenario = some { podLogScenario with
        trace := podLogScenario.trace ++
          [Effect.write detailViewName "Please select a pod. "] })) :=
  ⟨rfl, rfl, by decide,
    podLogsRender_all_namespaces detailViewName "kube-system   mypod-abc123   1/1   Running"
      podLogScenario rfl rfl⟩

/-- C2, as stated, fails. In the deployment scenario (Namespace selection
`kube-system`, Deployment selection `web-deploy   3/3   ...`) the one request
of `configRender` carries no namespace override; and with a blank row selected
in the Namespace panel, whose extracted namespace is empty, the same request is
issued all the same. -/
theorem configRender_no_namespace_override :
    deploymentConfigScenario.selected namespaceViewName = some "kube-system" ∧
    formatSelectedNamespace "kube-system" = "kube-system" ∧
    (configRender detailViewName deploymentConfigScenario).map (fun w => w.trace) =
      some [Effect.clear detailViewName,
        Effect.run
          { namespaceOverride := none, verb := "get", args := ["deployment", "web-deploy"],
            flags := [("output", "yaml")] }
          (some detailViewName)] ∧
    blankNamespaceScenario.selected namespaceViewName = some "   " ∧
    formatSelectedNamespace "   " = "" ∧
    (configRender detailViewName blankNamespaceScenario).map (fun w => w.trace) =
      some [Effect.clear detailViewName,
        Effect.run
          { namespaceOverride := none, verb := "get", args := ["deployment", "web-deploy"],
            flags := [("output", "yaml")] }
          (some detailViewName)] := by
  decide

theorem resourceViews_cases (v : String) (hv : v ∈ resourceViews) :
    v ≠ namespaceViewName ∧ resourceKind v ≠ "" ∧
    (if v = serviceViewName then "service"
      else if v = deploymentViewName then "deployment"
      else if v = podViewName then "pod" else "") = resourceKind v := by
  simp only [resourceViews, List.mem_cons, List.mem_singleton, List.not_mem_nil, or_false] at hv
  rcases hv with rfl | rfl | rfl <;> decide

/-- C2, amended. With a selection in the Namespace panel and a row selected in
the active Service, Deployment or Pod panel, `configRender` clears the pane and
issues exactly one request: a fetch of the resource kind of the panel, named
by field 0 of the row, with the flag output=yaml and no namespace override;
when the row has no field it issues no request and paints
`Please select a <kind>. `. -/
theorem configRender_namespace_selected (view v row nsRow : String) (w : World)
    (hv : v ∈ resourceViews) (hpanel : w.GetView namespaceViewName = true)
    (hact : w.activeView = some v)
    (hns : w.selected namespaceViewName = some nsRow) (hsel : w.selected v = some row) :
    (∀ name, (rowFields row.toList [])[0]? = some name →
      configRender view w = some { w with
        trace := w.trace ++
          [Effect.clear view,
           Effect.run
            { namespaceOverride := none, verb := "get", args := [resourceKind v, name],
              flags := [("output", "yaml")] }
            (some view)] }) ∧
    (rowFields row.toList [] = [] →
      configRender view w = some { w with
        trace := w.trace ++
          [Effect.clear view,
           Effect.write view ("Please select a " ++ resourceKind v ++ ". ")] }) := by
  obtain ⟨h1, h2, h3⟩ := resourceViews_cases v hv
  constructor
  · intro name h0
    obtain ⟨e0, n0⟩ := formatSelectedName_of_field row 0 name h0
    simp [configRender, World.emit, hact, h1, World.GetView, h3, h2, hns, hsel, e0, n0, World.run,
      Cli.Get, Request.SetFlag]
    simpa [World.GetView] using hpanel
  · intro hnil
    have e0 := formatSelectedName_of_short row 0 (by rw [hnil]; exact Nat.le_refl 0)
    simp [configRender, World.emit, hact, h1, World.GetView, h3, h2, hns, hsel, e0,
      showPleaseSelected]
    simpa [World.GetView] using hpanel

theorem configRender_namespace_selected_witness :
    deploymentViewName ∈ resourceViews ∧
    deploymentConfigScenario.GetView namespaceViewName = true ∧
    deploymentConfigScenario.activeView = some deploymentViewName ∧
    deploymentConfigScenario.selected namespaceViewName = some "kube-system" ∧
    deploymentConfigScenario.selected deploymentViewName = some "web-deploy   3/3   ..." ∧
    rowFields "web-deploy   3/3   ...".toList [] = ["web-deploy", "3/3", "..."] ∧
    resourceKind deploymentViewName = "deployment" ∧
    ((∀ name, (rowFields "web-deploy   3/3   ...".toList [])[0]? = some name →
      configRender detailViewName deploymentConfigScenario = some { deploymentConfigScenario with
        trace := deploymentConfigScenario.trace ++
          [Effect.clear detailViewName,
           Effect.run
            { namespaceOverride := none, verb := "get",
              args := [resourceKind deploymentViewName, name],
              flags := [("output", "yaml")] }
            (some detailViewName)] }) ∧
    (rowFields "web-deploy   3/3   ...".toList [] = [] →
      configRender detailViewName deploymentConfigScenario = some { deploymentConfigScenario with
        trace := deploymentConfigScenario.trace ++
          [Effect.clear detailViewName,
           Effect.write detailViewName
            ("Please select a " ++ resourceKind deploymentViewName ++ ". ")] })) :=
  ⟨by decide, by decide, rfl, rfl, rfl, by decide, by decide,
    configRender_namespace_selected detailViewName deploymentViewName "web-deploy   3/3   ..."
      "kube-system" deploymentConfigScenario (by decide) (by decide) rfl rfl rfl⟩

/-- C3, as stated, fails. With the Service panel active and no row selected,
the Pods path issues no request, but the text it paints ends in a space: it is
`Please select a service. ` and not `Please select a service.`. -/
theorem unselected_message_trailing_space :
    serviceUnselectedScenario.activeView = some serviceViewName ∧
    serviceUnselectedScenario.selected serviceViewName = none ∧
    (labelsPodsRender detailViewName serviceUnselectedScenario).map (fun w => w.trace) =
      some [Effect.clear detailViewName,
        Effect.write detailViewName "Please select a service. "] ∧
    (labelsPodsRender detailViewName serviceUnselectedScenario).map (fun w => w.trace) ≠
      some [Effect.clear detailViewName,
        Effect.write detailViewName "Please select a service."] := by
  decide

theorem configRender_unselected (view v : String) (w : World) (hv : v ∈ resourceViews)
    (hpanel : w.GetView namespaceViewName = true) (hact : w.activeView = some v)
    (hsel : w.selected v = none) :
    configRender view w = some { w with
      trace := w.trace ++
        [Effect.clear view, Effect.write view ("Please select a " ++ resourceKind v ++ ". ")] } := by
  obtain ⟨h1, h2, h3⟩ := resourceViews_cases v hv
  simp [configRender, World.emit, hact, h1, World.GetView, h3, h2, hsel, showPleaseSelected]
  simpa [World.GetView] using hpanel

theorem describeRender_unselected (view v : String) (w : World)
    (hv : v = deploymentViewName ∨ v = podViewName)
    (hpanel : w.GetView namespaceViewName = true) (hact : w.activeView = some v)
    (hsel : w.selected v = none) :
    describeRender view w = some { w with
      trace := w.trace ++
        [Effect.clear view, Effect.write view ("Please select a " ++ resourceKind v ++ ". ")] } := by
  have hp : namespaceViewName ∈ w.panels := by simpa [World.GetView] using hpanel
  have d1 : deploymentViewName ≠ namespaceViewName := by decide
  have d2 : podViewName ≠ namespaceViewName := by decide
  have d3 : podViewName ≠ deploymentViewName := by decide
  rcases hv with rfl | rfl
  · simp [describeRender, World.emit, hact, d1, World.GetView, hp, hsel, showPleaseSelected]
    decide
  · simp [describeRender, World.emit, hact, d2, d3, World.GetView, hp, hsel, showPleaseSelected]
    decide

theorem podLogsRender_unselected (view : String) (w : World)
    (hsel : w.selected podViewName = none) :
    podLogsRender view w = some { w with
      trace := w.trace ++ [Effect.write view ("Please select a " ++ resourceKind podViewName ++ ". ")] } := by
  simp [podLogsRender, hsel, showPleaseSelected, World.emit]
  decide

theorem podsSelectorRenderHelper_unselected
    (cmdFunc : String → List String → World → Option World) (view v : String) (w : World)
    (hv : v = serviceViewName ∨ v = deploymentViewName)
    (hpanel : w.GetView namespaceViewName = true) (hact : w.activeView = some v)
    (hsel : w.selected v = none) :
    podsSelectorRenderHelper cmdFunc view w = some { w with
      trace := w.trace ++ [Effect.write view ("Please select a " ++ resourceKind v ++ ". ")] } := by
  have hp : namespaceViewName ∈ w.panels := by simpa [World.GetView] using hpanel
  have d1 : serviceViewName ≠ namespaceViewName := by decide
  have d2 : deploymentViewName ≠ namespaceViewName := by decide
  have d3 : deploymentViewName ≠ serviceViewName := by decide
  rcases hv with rfl | rfl
  · simp [podsSelectorRenderHelper, World.emit, hact, d1, World.GetView, hp, hsel,
      showPleaseSelected]
    decide
  · simp [podsSelectorRenderHelper, World.emit, hact, d2, d3, World.GetView, hp, hsel,
      showPleaseSelected]
    decide

theorem selectorRoutines_unselected (view v : String) (w : World)
    (hv : v = serviceViewName ∨ v = deploymentViewName)
    (hpanel : w.GetView namespaceViewName = true) (hact : w.activeView = some v)
    (hsel : w.selected v = none) :
    labelsPodsRender view w = some { w with
      trace := w.trace ++
        [Effect.clear view, Effect.write view ("Please select a " ++ resourceKind v ++ ". ")] } ∧
    podsLogsRender view w = some { w with
      trace := w.trace ++
        [Effect.clear view, Effect.write view ("Please select a " ++ resourceKind v ++ ". ")] } ∧
    topPodsRender view w = some { w with
      trace := w.trace ++
        [Effect.clear view, Effect.write view ("Please select a " ++ resourceKind v ++ ". ")] } := by
  refine ⟨?_, ?_, ?_⟩
  · unfold labelsPodsRender
    simp only []
    rw [podsSelectorRenderHelper_unselected _ view v (w.emit (Effect.clear view)) hv hpanel hact
      hsel]
    simp [World.emit]
  · unfold podsLogsRender
    simp only []
    rw [podsSelectorRenderHelper_unselected _ view v (w.emit (Effect.clear view)) hv hpanel hact
      hsel]
    simp [World.emit]
  · unfold topPodsRender
    simp only []
    rw [podsSelectorRenderHelper_unselected _ view v (w.emit (Effect.clear view)) hv hpanel hact
      hsel]
    simp [World.emit]

/-- C3, amended. For an active Service, Deployment or Pod panel `v` with no row
selected and for the routine `r` the dispatch table binds to an option `o` of
`v`, whatever the selection of the Namespace panel: `r` issues no request, and
what it does is to clear the pane (the routine of the Pod log leaves that to
`detailRender`) and to paint the text `Please select a <kind>. `, which ends in
a space, with the resource kind of `v`. -/
theorem unselected_no_query (view v o : String) (r : Routine) (w : World)
    (hv : v ∈ resourceViews) (ho : o ∈ viewNavigationMap v)
    (hr : detailRenderMap.lookup (navigationPath [v, o]) = some r)
    (hpanel : w.GetView namespaceViewName = true) (hact : w.activeView = some v)
    (hsel : w.selected v = none) :
    r.call view w = some { w with
      trace := w.trace ++
        ((if r = Routine.podLogsRender then [] else [Effect.clear view]) ++
          [Effect.write view ("Please select a " ++ resourceKind v ++ ". ")]) } := by
  have hcfg := configRender_unselected view v w hv hpanel hact hsel
  simp only [resourceViews, List.mem_cons, List.mem_singleton, List.not_mem_nil, or_false] at hv
  rcases hv with rfl | rfl | rfl
  · have hsel3 := selectorRoutines_unselected view _ w (Or.inl rfl) hpanel hact hsel
    have ho1 : o = "Config" ∨ o = "Pods" ∨ o = "Pods Log" ∨ o = "Top Pods" := by
      have hm : viewNavigationMap serviceViewName = ["Config", "Pods", "Pods Log", "Top Pods"] := by
        decide
      rw [hm] at ho
      simpa using ho
    rcases ho1 with rfl | rfl | rfl | rfl
    · cases Option.some.inj (hr.symm.trans (by decide : _ = some Routine.configRender))
      simpa [Routine.call] using hcfg
    · cases Option.some.inj (hr.symm.trans (by decide : _ = some Routine.labelsPodsRender))
      simpa [Routine.call] using hsel3.1
    · cases Option.some.inj (hr.symm.trans (by decide : _ = some Routine.podsLogsRender))
      simpa [Routine.call] using hsel3.2.1
    · cases Option.some.inj (hr.symm.trans (by decide : _ = some Routine.topPodsRender))
      simpa [Routine.call] using hsel3.2.2
  · have hsel3 := selectorRoutines_unselected view _ w (Or.inr rfl) hpanel hact hsel
    have hdesc := describeRender_unselected view _ w (Or.inl rfl) hpanel hact hsel
    have ho1 : o = "Config" ∨ o = "Pods" ∨ o = "Pods Log" ∨ o = "Describe" ∨ o = "Top Pods" := by
      have hm : viewNavigationMap deploymentViewName
          = ["Config", "Pods", "Pods Log", "Describe", "Top Pods"] := by decide
      rw [hm] at ho
      simpa using ho
    rcases ho1 with rfl | rfl | rfl | rfl | rfl
    · cases Option.some.inj (hr.symm.trans (by decide : _ = some Routine.configRender))
      simpa [Routine.call] using hcfg
    · cases Option.some.inj (hr.symm.trans (by decide : _ = some Routine.labelsPodsRender))
      simpa [Routine.call] using hsel3.1
    · cases Option.some.inj (hr.symm.trans (by decide : _ = some Routine.podsLogsRender))
      simpa [Routine.call] using hsel3.2.1
    · cases Option.some.inj (hr.symm.trans (by decide : _ = some Routine.describeRender))
      simpa [Routine.call] using hdesc
    · cases Option.some.inj (hr.symm.trans (by decide : _ = some Routine.topPodsRender))
      simpa [Routine.call] using hsel3.2.2
  · have hdesc := describeRender_unselected view _ w (Or.inr rfl) hpanel hact hsel
    have hlog := podLogsRender_unselected view w hsel
    have ho1 : o = "Log" ∨ o = "Config" ∨ o = "Top" ∨ o = "Describe" := by
      have hm : viewNavigationMap podViewName = ["Log", "Config", "Top", "Describe"] := by decide
      rw [hm] at ho
      simpa using ho
    rcases ho1 with rfl | rfl | rfl | rfl
    · cases Option.some.inj (hr.symm.trans (by decide : _ = some Routine.podLogsRender))
      simpa [Routine.call] using hlog
    · cases Option.some.inj (hr.symm.trans (by decide : _ = some Routine.configRender))
      simpa [Routine.call] using hcfg
    · exact absurd (hr.symm.trans (by decide : _ = none)) (by simp)
    · cases Option.some.inj (hr.symm.trans (by decide : _ = some Routine.describeRender))
      simpa [Routine.call] using hdesc

theorem unselected_no_query_witness :
    serviceViewName ∈ resourceViews ∧ "Pods" ∈ viewNavigationMap serviceViewName ∧
    detailRenderMap.lookup (navigationPath [serviceViewName, "Pods"])
      = some Routine.labelsPodsRender ∧
    serviceUnselectedScenario.GetView namespaceViewName = true ∧
    serviceUnselectedScenario.activeView = some serviceViewName ∧
    serviceUnselectedScenario.selected serviceViewName = none ∧
    Routine.labelsPodsRender.call detailViewName serviceUnselectedScenario =
      some { serviceUnselectedScenario with
        trace := serviceUnselectedScenario.trace ++
          ((if Routine.labelsPodsRender = Routine.podLogsRender then []
            else [Effect.clear detailViewName]) ++
            [Effect.write detailViewName
              ("Please select a " ++ resourceKind serviceViewName ++ ". ")]) } :=
  ⟨by decide, by decide, by decide, by decide, rfl, rfl,
    unselected_no_query detailViewName serviceViewName "Pods" Routine.labelsPodsRender
      serviceUnselectedScenario (by decide) (by decide) (by decide) (by decide) rfl rfl⟩

/-- C9. The first strip redraw while a panel outside the function set is
focused breaks the invariant. From the initial state (no active view, index 0,
empty label) with the detail pane focused, `navigationRender` makes the detail
pane the active view; that panel has no options, so index 0 is not a valid
index, and the redraw panics on `options[navigationIndex]`. -/
theorem navigationRender_other_panel_focused :
    detailFocusedWorld.activeView = none ∧ detailFocusedWorld.navigationIndex = 0 ∧
    detailFocusedWorld.activeNavigationOpt = "" ∧
    detailFocusedWorld.currentView = some detailViewName ∧
    detailViewName ∉ functionViews ∧
    (navigationRenderActiveView detailFocusedWorld).2.activeView = some detailViewName ∧
    (navigationRenderActiveView detailFocusedWorld).2.navigationIndex = 0 ∧
    viewNavigationMap detailViewName = [] ∧
    ¬ ((navigationRenderActiveView detailFocusedWorld).2.navigationIndex
        < ((viewNavigationMap detailViewName).length : Int)) ∧
    goIndex (viewNavigationMap detailViewName)
      (navigationRenderActiveView detailFocusedWorld).2.navigationIndex = none ∧
    (navigationRender "navigation" detailFocusedWorld).isNone = true ∧
    (runEvents [Event.redraw "navigation" (some detailViewName)]
      (World.initial (detailViewName :: functionViews), false)).isNone = true := by
  decide

end Lazykube
